import Mathlib

/-!
Verification of the qrkit-dynamic-qr short-link core (apps/api/src/index.ts,
apps/api/src/codegen.ts, apps/worker/src/worker.ts) against its design
specification.

Conventions of the shallow embedding:
* Timestamps are integer milliseconds since the epoch (JS `Date.getTime()` /
  `Date.now()`), modelled as `Int`.  Each request handler receives a single
  `now`; the source calls `Date.now()` several times per request, but the
  calls are microseconds apart and the spec's claims are insensitive to that.
* Redis is a list of entries carrying the absolute store time and the TTL in
  seconds (`SET key value EX ttl`); a GET at time `t` hits iff
  `t < storedAt + ttl*1000`.
* `crypto.randomBytes(n)` is modelled by passing the produced byte list
  (each entry `< 256`) as an argument.
* URL validation (`new URL(...)` from the WHATWG URL library) is modelled as
  an abstract boolean predicate supplied to the handler, since the claims
  under study never depend on which strings parse as URLs.
* Logging is dropped; `try/catch` around a fallible external call is
  modelled by a boolean flag saying whether that call failed.
-/

namespace QrKit

/-! ## String helpers (substring matching used by the analytics regexes) -/

/-- `begins p s` is true iff the character list `p` is an initial segment
of `s` (the anchored match of a literal pattern at the current position). -/
def begins : List Char → List Char → Bool
  | [], _ => true
  | _ :: _, [] => false
  | p :: ps, c :: cs => p == c && begins ps cs

/-- `hasSub p s` is true iff the literal pattern `p` occurs as a contiguous
substring of `s` — JS `String.prototype.includes` / an unanchored regex
literal. -/
def hasSub (p : List Char) : List Char → Bool
  | [] => begins p []
  | c :: cs => begins p (c :: cs) || hasSub p cs

/-- JS `toLowerCase`, character-wise.  `Char.toLower` lowercases exactly
`A`-`Z`, agreeing with `toLowerCase` on the ASCII range user agents and
aliases are made of. -/
def lowerStr (s : String) : String :=
  String.mk (s.data.map Char.toLower)

/-- The whitespace stripped by JS `String.prototype.trim`, restricted to
the four common ASCII whitespace characters. -/
def isWsChar (c : Char) : Bool :=
  c == ' ' || c == '\t' || c == '\n' || c == '\r'

/-- JS `String.prototype.trim`: strip leading and trailing whitespace. -/
def strTrim (s : String) : String :=
  String.mk (((s.data.dropWhile isWsChar).reverse.dropWhile isWsChar).reverse)

/-! ## codegen.ts -/

/-- `ALPHABET` from codegen.ts: 26 lowercase + 26 uppercase + 10 digits. -/
def ALPHABET : String :=
  "abcdefghijklmnopqrstuvwxyzABCDEFGHIJKLMNOPQRSTUVWXYZ0123456789"

/-- `generateCode(length)` from codegen.ts.  `bytes` is the output of
`crypto.randomBytes(length)` (entries in `0..255`); character `i` of the
result is `ALPHABET[bytes[i] % ALPHABET.length]`.  `ALPHABET.length = 62`. -/
def generateCode (bytes : List Nat) (length : Nat) : String :=
  String.mk ((List.range length).map fun i =>
    ALPHABET.data.getD ((bytes.getD i 0) % ALPHABET.data.length) 'a')

/-! ## Data model: link rows, the Redis cache -/

/-- A row of the `urls` table (type `UrlRow` in index.ts), restricted to the
fields the claims touch.  `aliasOpt` embeds the source column `alias`
(`alias` is a reserved word in Lean). -/
structure UrlRow where
  short_code : String
  long_url : String
  aliasOpt : Option String
  expires_at : Option Int
deriving DecidableEq, Repr

/-- The `urls` table. -/
structure Store where
  rows : List UrlRow
deriving DecidableEq, Repr

/-- `findUrlByCode`: single row whose `short_code` equals `code`, else null. -/
def Store.find (s : Store) (code : String) : Option UrlRow :=
  s.rows.find? (fun r => r.short_code == code)

/-- One Redis entry `r:<code> -> longUrl`, written at `storedAt` (ms) with
lifetime `ttl` seconds (`SET ... EX ttl`). -/
structure CacheEntry where
  code : String
  value : String
  storedAt : Int
  ttl : Int
deriving DecidableEq, Repr

/-- The Redis cache. -/
structure Cache where
  entries : List CacheEntry
deriving DecidableEq, Repr

/-- `cacheGet` / `redis.get`: a stored entry answers iff its TTL has not yet
lapsed at `now`. -/
def Cache.get (c : Cache) (code : String) (now : Int) : Option String :=
  match c.entries.find? (fun e => e.code == code) with
  | some e => if now < e.storedAt + e.ttl * 1000 then some e.value else none
  | none => none

/-- `redis.set key value EX ttl`: replaces any previous entry for `code`. -/
def Cache.set (c : Cache) (code value : String) (now ttl : Int) : Cache :=
  ⟨⟨code, value, now, ttl⟩ :: c.entries.filter (fun e => !(e.code == code))⟩

/-- `cacheDelete` / `redis.del`. -/
def Cache.del (c : Cache) (code : String) : Cache :=
  ⟨c.entries.filter (fun e => !(e.code == code))⟩

/-! ## Cache TTL computation (index.ts lines 303-307, 358-362, 703-706) -/

/-- The TTL the handlers compute when `expires_at` is set:
`Math.max(60, Math.floor((new Date(row.expires_at).getTime() - Date.now()) / 1000))`.
`Int.fdiv` is floor division, matching `Math.floor` on the real quotient. -/
def cacheTtlOf (expiresAt now : Int) : Int :=
  max 60 (Int.fdiv (expiresAt - now) 1000)

/-- `cacheSet`'s `ttlSeconds ?? 86400` (index.ts line 168): the effective TTL
actually passed to Redis when the handler supplied `t` (which is `undefined`
when the row has no `expires_at`). -/
def effectiveTtl (t : Option Int) : Int :=
  t.getD 86400

/-- Modelled from the spec's words (section 4.3), for comparison with
`cacheTtlOf` / `effectiveTtl`: `ttl = min(default_ttl, expires_at - now)`
when `expires_at` is set, else `default_ttl` (24 hours). -/
def specTtlPolicy (expiresAt : Option Int) (now : Int) : Int :=
  match expiresAt with
  | some e => min 86400 (Int.fdiv (e - now) 1000)
  | none => 86400

/-! ## Resolution and redirect handlers -/

/-- An HTTP response, reduced to its status and the destination it carries
(the `Location` header of a redirect, or the `long_url` JSON field of
`/api/resolve`). -/
structure HttpResponse where
  status : Nat
  dest : Option String
deriving DecidableEq, Repr

/-- The expiry guard both resolution handlers run after a cache miss:
`if (row.expires_at) { if (new Date(row.expires_at).getTime() < Date.now()) ... }`. -/
def isExpired (row : UrlRow) (now : Int) : Bool :=
  match row.expires_at with
  | some e => decide (e < now)
  | none => false

/-- `GET /api/resolve/:code` (index.ts lines 331-364).  Returns the response
and the cache as left by the request (the handler's `void cacheSet(...)` is
not awaited but does run; nothing else mutates state). -/
def apiResolve (store : Store) (cache : Cache) (code : String) (now : Int) :
    HttpResponse × Cache :=
  if code == "" then (⟨404, none⟩, cache)
  else
    match cache.get code now with
    | some cached => (⟨200, some cached⟩, cache)
    | none =>
      match store.find code with
      | none => (⟨404, none⟩, cache)
      | some row =>
        if isExpired row now then (⟨410, none⟩, cache)
        else
          let t := row.expires_at.map (fun e => cacheTtlOf e now)
          (⟨200, some row.long_url⟩, cache.set code row.long_url now (effectiveTtl t))

/-- The public redirect `GET /:code` (index.ts lines 640-726).  The
`waitUntil(cacheSet ...)` background task is reflected in the returned
cache; the scan-logging and click-increment side effects are not modelled
(no claim depends on them). -/
def redirectHandler (store : Store) (cache : Cache) (code : String) (now : Int) :
    HttpResponse × Cache :=
  if code == "" || code.data.contains '/' then (⟨404, none⟩, cache)
  else
    match cache.get code now with
    | some cached => (⟨302, some cached⟩, cache)
    | none =>
      match store.find code with
      | none => (⟨404, none⟩, cache)
      | some row =>
        if isExpired row now then (⟨410, none⟩, cache)
        else
          let t := row.expires_at.map (fun e => cacheTtlOf e now)
          (⟨302, some row.long_url⟩, cache.set code row.long_url now (effectiveTtl t))

/-! ## Destination update endpoints -/

/-- `supabase.from("urls").update({long_url, updated_at}).eq("short_code", code)`:
rewrites the destination of every row keyed by `code` (at most one, since
`short_code` is unique). -/
def Store.updateDest (s : Store) (code url : String) : Store :=
  ⟨s.rows.map fun r =>
    if r.short_code == code then ⟨r.short_code, url, r.aliasOpt, r.expires_at⟩ else r⟩

/-- Outcome of an update endpoint, by response status. -/
inductive UpdateOutcome where
  | badRequest
  | notFound
  | serverError
  | success (short_code new_url : String)
deriving DecidableEq, Repr

/-- `PATCH /api/:code` (index.ts lines 367-417).  `body` is `body.long_url`
(absent when the JSON lacks it); `isValidUrl` abstracts the WHATWG `new URL`
validation of index.ts lines 76-83; `delFails` says whether the awaited
`redis.del` throws — the handler catches that failure, logs it and still
returns success.  Database transport failures (the 500 branch of the store
write) are not modelled: the store is taken as reliable. -/
def patchUpdate (store : Store) (cache : Cache) (shortCode : String)
    (body : Option String) (isValidUrl : String → Bool) (delFails : Bool) :
    UpdateOutcome × Store × Cache :=
  match body with
  | none => (.badRequest, store, cache)
  | some url =>
    if !isValidUrl url then (.badRequest, store, cache)
    else
      match store.find shortCode with
      | none => (.notFound, store, cache)
      | some _ =>
        let store1 := store.updateDest shortCode url
        if delFails then (.success shortCode url, store1, cache)
        else (.success shortCode url, store1, cache.del shortCode)

/-- `POST /api/update` (index.ts lines 572-632).  `urlParses` abstracts
`new URL(new_url)` not throwing.  The whole handler body sits in one
`try/catch` whose catch returns 500, and the awaited `cacheDelete` is inside
it: when the delete throws (`delFails`), the handler answers 500 even though
the store write has already committed. -/
def postUpdate (store : Store) (cache : Cache) (code newUrl : Option String)
    (urlParses : String → Bool) (delFails : Bool) :
    UpdateOutcome × Store × Cache :=
  match code with
  | none => (.badRequest, store, cache)
  | some cd =>
    match newUrl with
    | none => (.badRequest, store, cache)
    | some url =>
      if !urlParses url then (.badRequest, store, cache)
      else
        match store.find cd with
        | none => (.notFound, store, cache)
        | some _ =>
          let store1 := store.updateDest cd url
          if delFails then (.serverError, store1, cache)
          else (.success cd url, store1, cache.del cd)

/-! ## Creation endpoint `POST /api/shorten` (index.ts lines 254-328) -/

/-- `createUrl` (index.ts lines 86-121): the insert hits the table's unique
indexes on `short_code` and on `alias`; a violation is Postgres error 23505
(`none` here), otherwise the row is appended. -/
def Store.insertRow (s : Store) (row : UrlRow) : Option Store :=
  if s.rows.any (fun r => r.short_code == row.short_code
      || (row.aliasOpt.isSome && r.aliasOpt == row.aliasOpt)) then none
  else some ⟨s.rows ++ [row]⟩

/-- Outcome of `POST /api/shorten`, by response status: 400, 409
(`alias already in use`), 500 (`failed to generate code`), or 200. -/
inductive ShortenOutcome where
  | badRequest
  | conflictAlias
  | genFailed
  | ok (code : String)
deriving DecidableEq, Repr

/-- The alias charset rule `/^[a-zA-Z0-9-_]+$/` (index.ts line 277). -/
def aliasCharsOk (a : String) : Bool :=
  !a.data.isEmpty && a.data.all (fun c => c.isAlpha || c.isDigit || c == '-' || c == '_')

/-- The retry loop of index.ts lines 285-324.  `i` is the attempt index,
`remaining` the attempts left (3 at the top).  `gen i` is the value
`generateCode(7)` would produce on attempt `i` (randomness passed in).  The
`generateQr` call is elided (its result only decorates the stored row); the
fire-and-forget `void cacheSet(...)` on success is reflected in the returned
cache. -/
def shortenTries (store : Store) (cache : Cache) (longUrl : String)
    (aliasv : Option String) (expiresAt : Option Int) (gen : Nat → String)
    (now : Int) : Nat → Nat → ShortenOutcome × Store × Cache
  | _, 0 => (.genFailed, store, cache)
  | i, remaining + 1 =>
    let code := aliasv.getD (gen i)
    match store.insertRow ⟨code, longUrl, aliasv, expiresAt⟩ with
    | some store1 =>
      let t := expiresAt.map (fun e => cacheTtlOf e now)
      (.ok code, store1, cache.set code longUrl now (effectiveTtl t))
    | none =>
      if aliasv.isSome then (.conflictAlias, store, cache)
      else shortenTries store cache longUrl aliasv expiresAt gen now (i + 1) remaining

/-- `POST /api/shorten` (index.ts lines 254-328): request validation, then
up to 3 creation attempts.  `bodyAlias` is the raw `body.alias`; the
handler trims it and coerces the empty result to "absent". -/
def shorten (store : Store) (cache : Cache) (bodyLongUrl bodyAlias : Option String)
    (expiresAt : Option Int) (isValidUrl : String → Bool) (gen : Nat → String)
    (now : Int) : ShortenOutcome × Store × Cache :=
  match bodyLongUrl with
  | none => (.badRequest, store, cache)
  | some longUrl =>
    if !isValidUrl longUrl then (.badRequest, store, cache)
    else if (match expiresAt with | some e => decide (e ≤ now) | none => false) then
      (.badRequest, store, cache)
    else
      let aliasv : Option String :=
        match bodyAlias with
        | some a => if strTrim a == "" then none else some (strTrim a)
        | none => none
      if (match aliasv with | some a => decide (7 < a.length) | none => false) then
        (.badRequest, store, cache)
      else if (match aliasv with | some a => !aliasCharsOk a | none => false) then
        (.badRequest, store, cache)
      else shortenTries store cache longUrl aliasv expiresAt gen now 0 3

/-! ## The standalone edge worker (apps/worker/src/worker.ts) -/

/-- worker.ts lines 45-47: `Response.redirect(target, 301)`. -/
def workerRedirect (target : String) : HttpResponse :=
  ⟨301, some target⟩

/-- `pathname.replace(/^\//, "")`: drop one leading slash. -/
def stripLeadingSlash (p : String) : String :=
  if p.data.head? == some '/' then String.mk p.data.tail else p

/-- The worker's `fetch` handler (worker.ts lines 11-42).  `redisVal` is
what `redisGet` answers for the extracted code, `apiResult` what
`resolveViaApi` answers (`none` for a non-OK or unparsable response); the
`redisSet` and `sendHit` side effects do not affect the response. -/
def workerFetch (pathname : String) (redisVal apiResult : Option String) :
    HttpResponse :=
  if pathname == "/healthz" then ⟨200, none⟩
  else if pathname == "/debug" then ⟨200, none⟩
  else
    let code := stripLeadingSlash pathname
    if code == "" || code.data.contains '/' then ⟨404, none⟩
    else
      match redisVal with
      | some cached => workerRedirect cached
      | none =>
        match apiResult with
        | none => ⟨404, none⟩
        | some r => workerRedirect r

/-! ## Analytics aggregation `GET /api/analytics/:code` (index.ts lines 435-569) -/

/-- A row of the `url_scans` table (one ScanEvent), restricted to the fields
the aggregation reads.  The handler receives them ordered by `scanned_at`
descending. -/
structure ScanEvent where
  short_code : String
  scanned_at : Int
  user_agent : Option String
  country : Option String
  city : Option String
deriving DecidableEq, Repr

/-- `totalScans = scanData.length` (index.ts line 464). -/
def totalScans (scans : List ScanEvent) : Nat :=
  scans.length

/-- `scansToday` (index.ts lines 467-471): events with
`new Date(scan.scanned_at) >= todayStart`, where `todayStart` is today's
UTC midnight (passed in here, derived from the request clock). -/
def scansToday (scans : List ScanEvent) (todayStart : Int) : Nat :=
  (scans.filter (fun s => decide (todayStart ≤ s.scanned_at))).length

/-- One `countryCounts[scan.country] = (countryCounts[scan.country] || 0) + 1`
step on an association list kept in key-insertion order — the order
`Object.entries` later reports for non-integer-like string keys. -/
def bumpCount (k : String) : List (String × Nat) → List (String × Nat)
  | [] => [(k, 1)]
  | (q, n) :: rest => if q == k then (q, n + 1) :: rest else (q, n) :: bumpCount k rest

/-- The `countryCounts` / `cityCounts` accumulation loops (index.ts lines
474-479 and 535-540): events whose field is null are skipped. -/
def countByField (f : ScanEvent → Option String) (scans : List ScanEvent) :
    List (String × Nat) :=
  scans.foldl (fun m s => match f s with | some v => bumpCount v m | none => m) []

/-- Insertion step of a stable sort descending by count: the new element goes
after every element of equal or greater count, as V8's stable
`.sort((a, b) => b.count - a.count)` leaves equal-count entries in their
original (first-seen) order. -/
def insertByCountDesc (x : String × Nat) : List (String × Nat) → List (String × Nat)
  | [] => [x]
  | y :: ys => if y.2 ≤ x.2 then x :: y :: ys else y :: insertByCountDesc x ys

/-- Stable sort descending by count, `.sort((a, b) => b.count - a.count)`. -/
def sortByCountDesc : List (String × Nat) → List (String × Nat)
  | [] => []
  | x :: xs => insertByCountDesc x (sortByCountDesc xs)

/-- Total count held in an association list for a key (0 when absent). -/
def lookupD : List (String × Nat) → String → Nat
  | [], _ => 0
  | (q, n) :: rest, k => if q == k then n else lookupD rest k

/-- `topCountries` (index.ts lines 480-483): entries of the country-count
map, sorted descending by count, first 10. -/
def topCountries (scans : List ScanEvent) : List (String × Nat) :=
  (sortByCountDesc (countByField (fun s => s.country) scans)).take 10

/-- `topCities` (index.ts lines 541-544). -/
def topCities (scans : List ScanEvent) : List (String × Nat) :=
  (sortByCountDesc (countByField (fun s => s.city) scans)).take 10

/-- The tablet regex of index.ts line 495,
`/(tablet|ipad|playbook|silk)|(android(?!.*mobile))/i`, evaluated on the
already-lowercased user agent: some position starts `tablet`, `ipad`,
`playbook` or `silk`, or starts `android` with no later occurrence of
`mobile` (the negative lookahead `(?!.*mobile)`). -/
def tabletMatch : List Char → Bool
  | [] => false
  | c :: cs =>
    begins "tablet".data (c :: cs) || begins "ipad".data (c :: cs)
    || begins "playbook".data (c :: cs) || begins "silk".data (c :: cs)
    || (begins "android".data (c :: cs) && !hasSub "mobile".data (List.drop 7 (c :: cs)))
    || tabletMatch cs

/-- The mobile regex of index.ts line 497,
`/mobile|iphone|ipod|android|blackberry|opera mini|windows phone/i`, on the
already-lowercased user agent. -/
def mobileMatch (s : List Char) : Bool :=
  hasSub "mobile".data s || hasSub "iphone".data s || hasSub "ipod".data s
  || hasSub "android".data s || hasSub "blackberry".data s
  || hasSub "opera mini".data s || hasSub "windows phone".data s

/-- The four device classes of the breakdown. -/
inductive Device where
  | mobile
  | desktop
  | tablet
  | unknown
deriving DecidableEq, Repr

/-- The per-event classification chain of index.ts lines 491-504:
`const ua = scan.user_agent?.toLowerCase() || ""` followed by
`if (!ua) ... else if (tablet) ... else if (mobile) ... else if (ua) ... else ...`.
`String.toLower` lowercases exactly `A`-`Z`, as `toLowerCase` does on the
ASCII range user agents use. -/
def classifyDevice (userAgent : Option String) : Device :=
  let ua := lowerStr (userAgent.getD "")
  if ua == "" then .unknown
  else if tabletMatch ua.data then .tablet
  else if mobileMatch ua.data then .mobile
  else if !(ua == "") then .desktop
  else .unknown

/-- The `devices` object of index.ts lines 506-511. -/
structure DeviceCounts where
  mobile : Nat
  desktop : Nat
  tablet : Nat
  unknown : Nat
deriving DecidableEq, Repr

/-- The counting loop of index.ts lines 486-504: each event increments the
counter of its class. -/
def deviceCounts (scans : List ScanEvent) : DeviceCounts :=
  scans.foldl
    (fun d s =>
      match classifyDevice s.user_agent with
      | .mobile => ⟨d.mobile + 1, d.desktop, d.tablet, d.unknown⟩
      | .desktop => ⟨d.mobile, d.desktop + 1, d.tablet, d.unknown⟩
      | .tablet => ⟨d.mobile, d.desktop, d.tablet + 1, d.unknown⟩
      | .unknown => ⟨d.mobile, d.desktop, d.tablet, d.unknown + 1⟩)
    ⟨0, 0, 0, 0⟩

/-- The `device` field of a `recent_scans` entry (index.ts line 562):
`scan.user_agent?.toLowerCase().includes("mobile") ? "mobile" : "desktop"`
(a null `user_agent` short-circuits to `undefined`, which is falsy, hence
`"desktop"`). -/
def recentDevice (userAgent : Option String) : String :=
  match userAgent with
  | none => "desktop"
  | some ua => if hasSub "mobile".data (lowerStr ua).data then "mobile" else "desktop"

/-- One entry of `recent_scans` (index.ts lines 558-563). -/
structure RecentScan where
  scanned_at : Int
  country : Option String
  city : Option String
  device : String
deriving DecidableEq, Repr

/-- `recent_scans = scanData.slice(0, 10).map(...)` — `scanData` arrives
ordered by `scanned_at` descending, so this is the 10 most recent events. -/
def recentScans (scans : List ScanEvent) : List RecentScan :=
  (scans.take 10).map fun s => ⟨s.scanned_at, s.country, s.city, recentDevice s.user_agent⟩

/-! ## Claim C1 -/

/-- **C1** (code_bug): the claim — an expired link always resolves to Gone,
even via a cache entry populated before expiry — is violated by the code.
Failing input: link `abc` with `expires_at = 30000` ms; a redirect at
`now = 0` caches the destination with TTL `max(60, 30) = 60` seconds
(index.ts line 705); a redirect and an `/api/resolve` call at `now = 45000`
— 15 s after expiry — hit that still-live cache entry and return the
destination with 302/200, never consulting the expiry check.  A cache-miss
resolve at the same instant answers 410, and an entry with the
spec-mandated TTL (`specTtlPolicy`, 30 s) would already have lapsed: the
resurrection comes exactly from the 60-second TTL floor. -/
theorem C1_cache_hit_resurrects_expired_link :
    (redirectHandler ⟨[⟨"abc", "https://example.com", none, some 30000⟩]⟩ ⟨[]⟩
        "abc" 0).1.status = 302
    ∧ (redirectHandler ⟨[⟨"abc", "https://example.com", none, some 30000⟩]⟩
        (redirectHandler ⟨[⟨"abc", "https://example.com", none, some 30000⟩]⟩ ⟨[]⟩
          "abc" 0).2 "abc" 45000).1 = ⟨302, some "https://example.com"⟩
    ∧ (apiResolve ⟨[⟨"abc", "https://example.com", none, some 30000⟩]⟩
        (redirectHandler ⟨[⟨"abc", "https://example.com", none, some 30000⟩]⟩ ⟨[]⟩
          "abc" 0).2 "abc" 45000).1 = ⟨200, some "https://example.com"⟩
    ∧ isExpired ⟨"abc", "https://example.com", none, some 30000⟩ 45000 = true
    ∧ (redirectHandler ⟨[⟨"abc", "https://example.com", none, some 30000⟩]⟩ ⟨[]⟩
        "abc" 45000).1.status = 410
    ∧ Cache.get ⟨[⟨"abc", "https://example.com", 0, specTtlPolicy (some 30000) 0⟩]⟩
        "abc" 45000 = none := by
  decide

/-! ## Claim C2 -/

/-- **C2**, counterexample: the TTL actually written is not
`min(default_ttl, expires_at - now)`.  For a link with
`expires_at = now + 30s` the resolve-populated cache entry has TTL 60 s
(not ≤ 30 s), and for a link expiring 3 days out the entry has TTL
259200 s, above the 24-hour default. -/
theorem C2_ttl_counterexample :
    ((apiResolve ⟨[⟨"abc", "u", none, some 30000⟩]⟩ ⟨[]⟩ "abc" 0).2.entries.map
        (fun e => e.ttl)) = [60]
    ∧ specTtlPolicy (some 30000) 0 = 30
    ∧ ¬ ((60 : Int) ≤ 30)
    ∧ ((apiResolve ⟨[⟨"d", "u", none, some 259200000⟩]⟩ ⟨[]⟩ "d" 0).2.entries.map
        (fun e => e.ttl)) = [259200]
    ∧ ¬ ((259200 : Int) ≤ 86400) := by
  decide

/-- **C2**, amended: for every cache-populating resolve or redirect the TTL
written to the cache equals `max(60, ⌊(expires_at - now) / 1000⌋)` seconds
when `expires_at` is set and 86400 s (24 h) otherwise; in particular it is
never below 60 s, so a link with `expires_at = now + 30s` gets a 60-second
entry, and it exceeds the 24-hour default whenever the link expires more
than 24 h out. -/
theorem C2_ttl_amended (store : Store) (cache : Cache) (code : String) (now : Int)
    (row : UrlRow) (hfind : store.find code = some row)
    (hmiss : cache.get code now = none) (hcode : (code == "") = false)
    (hslash : code.data.contains '/' = false) (hexp : isExpired row now = false) :
    ((apiResolve store cache code now).2.entries.head?.map (fun e => e.ttl)) =
      some (match row.expires_at with
            | some e => max 60 (Int.fdiv (e - now) 1000)
            | none => 86400)
    ∧ ((redirectHandler store cache code now).2.entries.head?.map (fun e => e.ttl)) =
      some (match row.expires_at with
            | some e => max 60 (Int.fdiv (e - now) 1000)
            | none => 86400)
    ∧ (∀ t, ((apiResolve store cache code now).2.entries.head?.map (fun e => e.ttl))
          = some t → 60 ≤ t) := by
  refine ⟨?_, ?_, ?_⟩ <;>
    · simp only [apiResolve, redirectHandler, hmiss, hcode, hslash, hfind, hexp,
        Bool.false_eq_true, if_false, Bool.or_self, Cache.set, effectiveTtl,
        cacheTtlOf]
      cases h : row.expires_at <;> simp [h, cacheTtlOf, le_max_left]

/-- Witness for `C2_ttl_amended` at a concrete input. -/
theorem C2_ttl_amended_witness :
    ((apiResolve ⟨[⟨"abc", "u", none, some 30000⟩]⟩ ⟨[]⟩ "abc" 0).2.entries.head?.map
        (fun e => e.ttl)) =
      some (match (some 30000 : Option Int) with
            | some e => max 60 (Int.fdiv (e - 0) 1000)
            | none => 86400) := by
  exact (C2_ttl_amended ⟨[⟨"abc", "u", none, some 30000⟩]⟩ ⟨[]⟩ "abc" 0
    ⟨"abc", "u", none, some 30000⟩ (by decide) (by decide) (by decide) (by decide)
    (by decide)).1

/-! ## Claim C3 -/

/-- After `redis.del`, no lookup for that code can hit, at any time. -/
theorem find_filter_ne_none (code : String) (l : List CacheEntry) :
    (l.filter (fun e => !(e.code == code))).find? (fun e => e.code == code) = none := by
  induction l with
  | nil => rfl
  | cons e es ih =>
    by_cases h : e.code = code
    · simp [List.filter_cons, h, ih]
    · simp [List.filter_cons, List.find?_cons, h, ih]

/-- `Cache.del` removes the entry: every later `get` for that code misses. -/
theorem Cache.get_del (c : Cache) (code : String) (t : Int) :
    (c.del code).get code t = none := by
  simp only [Cache.del, Cache.get, find_filter_ne_none]

/-- **C3**, counterexample: the claim says a failed cache invalidation still
yields success.  For `POST /api/update` on an existing code `abc` with a
valid URL and a failing `redis.del`, the endpoint answers 500
(`serverError`), not success — even though the store write has already
committed (the returned store holds the new destination). -/
theorem C3_counterexample :
    (postUpdate ⟨[⟨"abc", "https://old.example", none, none⟩]⟩ ⟨[]⟩
        (some "abc") (some "https://new.example") (fun _ => true) true).1
      = UpdateOutcome.serverError
    ∧ (postUpdate ⟨[⟨"abc", "https://old.example", none, none⟩]⟩ ⟨[]⟩
        (some "abc") (some "https://new.example") (fun _ => true) true).2.1.find "abc"
      = some ⟨"abc", "https://new.example", none, none⟩
    ∧ UpdateOutcome.serverError ≠
        UpdateOutcome.success "abc" "https://new.example" := by
  decide

/-- **C3**, amended: for both update endpoints the new destination is
validated first (an invalid body touches neither store nor cache), the
store write precedes the awaited cache invalidation, and success always
reflects the committed write.  On `PATCH /api/:code` a failed invalidation
is only logged and the endpoint still returns success; on
`POST /api/update` a failed invalidation instead yields a 500 response,
with the store write already committed. -/
theorem C3_update_amended (store : Store) (cache : Cache) (code url : String)
    (validUrl parses : String → Bool) (delFails : Bool) (row : UrlRow)
    (hfind : store.find code = some row) (hvalid : validUrl url = true)
    (hparse : parses url = true) :
    (patchUpdate store cache code (some url) validUrl delFails).1
        = UpdateOutcome.success code url
    ∧ (patchUpdate store cache code (some url) validUrl delFails).2.1
        = store.updateDest code url
    ∧ (patchUpdate store cache code (some url) validUrl false).2.2 = cache.del code
    ∧ (patchUpdate store cache code (some url) validUrl true).2.2 = cache
    ∧ (∀ u2, validUrl u2 = false →
        patchUpdate store cache code (some u2) validUrl delFails
          = (UpdateOutcome.badRequest, store, cache))
    ∧ (∀ u2, parses u2 = false →
        postUpdate store cache (some code) (some u2) parses delFails
          = (UpdateOutcome.badRequest, store, cache))
    ∧ (∀ t, (cache.del code).get code t = none)
    ∧ postUpdate store cache (some code) (some url) parses false
        = (UpdateOutcome.success code url, store.updateDest code url, cache.del code)
    ∧ postUpdate store cache (some code) (some url) parses true
        = (UpdateOutcome.serverError, store.updateDest code url, cache) := by
  refine ⟨?_, ?_, ?_, ?_, ?_, ?_, ?_, ?_, ?_⟩
  · cases delFails <;> simp [patchUpdate, hfind, hvalid]
  · cases delFails <;> simp [patchUpdate, hfind, hvalid]
  · simp [patchUpdate, hfind, hvalid]
  · simp [patchUpdate, hfind, hvalid]
  · intro u2 h2
    cases delFails <;> simp [patchUpdate, h2]
  · intro u2 h2
    cases delFails <;> simp [postUpdate, h2]
  · intro t
    exact Cache.get_del cache code t
  · simp [postUpdate, hfind, hparse]
  · simp [postUpdate, hfind, hparse]

/-- Witness for `C3_update_amended` at a concrete input. -/
theorem C3_update_amended_witness :
    (patchUpdate ⟨[⟨"abc", "https://old.example", none, none⟩]⟩ ⟨[]⟩ "abc"
        (some "https://new.example") (fun _ => true) true).1
      = UpdateOutcome.success "abc" "https://new.example" :=
  (C3_update_amended ⟨[⟨"abc", "https://old.example", none, none⟩]⟩ ⟨[]⟩
    "abc" "https://new.example" (fun _ => true) (fun _ => true) true
    ⟨"abc", "https://old.example", none, none⟩ (by decide) rfl rfl).1

/-! ## Claim C4 -/

/-- **C4**, counterexample: the claim says a successful public redirect is
never a 301.  The standalone edge worker (worker.ts) serves `GET /{code}`
with `Response.redirect(target, 301)` on both its cache-hit and its
API-resolved paths. -/
theorem C4_counterexample :
    workerFetch "/abc" (some "https://example.com") none
      = ⟨301, some "https://example.com"⟩
    ∧ workerFetch "/abc" none (some "https://example.org")
      = ⟨301, some "https://example.org"⟩
    ∧ (301 : Nat) ≠ 302 := by
  decide

/-- **C4**, amended: every successful redirect served by the API's
`GET /:code` handler carries status 302 (never 301), while every successful
redirect served by the standalone edge worker carries status 301. -/
theorem C4_redirect_status_amended :
    (∀ (store : Store) (cache : Cache) (code : String) (now : Int),
      ((redirectHandler store cache code now).1.dest).isSome = true →
      (redirectHandler store cache code now).1.status = 302)
    ∧ (∀ (pathname : String) (redisVal apiResult : Option String),
      ((workerFetch pathname redisVal apiResult).dest).isSome = true →
      (workerFetch pathname redisVal apiResult).status = 301) := by
  constructor
  · intro store cache code now
    unfold redirectHandler
    dsimp only
    split
    · intro h
      simp at h
    · split
      · intro _
        rfl
      · split
        · intro h
          simp at h
        · split
          · intro h
            simp at h
          · intro _
            rfl
  · intro pathname redisVal apiResult
    unfold workerFetch
    dsimp only
    split
    · intro h
      simp at h
    · split
      · intro h
        simp at h
      · split
        · intro h
          simp at h
        · split
          · intro _
            rfl
          · split
            · intro h
              simp at h
            · intro _
              rfl

/-- Witness for `C4_redirect_status_amended` at concrete inputs. -/
theorem C4_redirect_status_amended_witness :
    (redirectHandler ⟨[⟨"abc", "https://example.com", none, none⟩]⟩ ⟨[]⟩
        "abc" 0).1.status = 302
    ∧ (workerFetch "/abc" (some "https://example.com") none).status = 301 :=
  ⟨C4_redirect_status_amended.1 ⟨[⟨"abc", "https://example.com", none, none⟩]⟩
      ⟨[]⟩ "abc" 0 (by decide),
    C4_redirect_status_amended.2 "/abc" (some "https://example.com") none (by decide)⟩

/-! ## Claim C5 -/

/-- A row just inserted occupies its `short_code`: re-inserting any row with
the same code conflicts. -/
theorem insertRow_after_insert (store st1 : Store) (row row2 : UrlRow)
    (h : store.insertRow row = some st1) (hcode : row2.short_code = row.short_code) :
    st1.insertRow row2 = none := by
  unfold Store.insertRow at h ⊢
  split at h
  · exact absurd h (by simp)
  · cases h
    simp [hcode]

/-- **C5**: the creation endpoint loops at most 3 attempts: if all three
generated codes conflict the request fails with 500 (`genFailed`) and the
store is untouched; a conflict on a caller-supplied alias returns 409
(`conflictAlias`) immediately, leaving the store untouched; a conflict on a
generated code retries with the next freshly generated code; and creating
with an alias that is free succeeds, after which a second creation with
the same alias gets the conflict — exactly one success and one conflict. -/
theorem C5_creation_retries (store : Store) (cache : Cache)
    (longUrl a : String) (expiresAt : Option Int) (isValidUrl : String → Bool)
    (gen : Nat → String) (now : Int)
    (hvalid : isValidUrl longUrl = true)
    (hfut : (match expiresAt with | some e => decide (e ≤ now) | none => false) = false)
    (htrim : strTrim a = a) (hne : (a == "") = false)
    (hlen : decide (7 < a.length) = false) (hchars : aliasCharsOk a = true) :
    ((store.insertRow ⟨gen 0, longUrl, none, expiresAt⟩ = none) →
      (store.insertRow ⟨gen 1, longUrl, none, expiresAt⟩ = none) →
      (store.insertRow ⟨gen 2, longUrl, none, expiresAt⟩ = none) →
      shorten store cache (some longUrl) none expiresAt isValidUrl gen now
        = (ShortenOutcome.genFailed, store, cache))
    ∧ ((store.insertRow ⟨a, longUrl, some a, expiresAt⟩ = none) →
      shorten store cache (some longUrl) (some a) expiresAt isValidUrl gen now
        = (ShortenOutcome.conflictAlias, store, cache))
    ∧ (∀ st1, (store.insertRow ⟨gen 0, longUrl, none, expiresAt⟩ = none) →
      store.insertRow ⟨gen 1, longUrl, none, expiresAt⟩ = some st1 →
      shorten store cache (some longUrl) none expiresAt isValidUrl gen now
        = (ShortenOutcome.ok (gen 1), st1,
            cache.set (gen 1) longUrl now
              (effectiveTtl (expiresAt.map fun e => cacheTtlOf e now))))
    ∧ (∀ st1, store.insertRow ⟨a, longUrl, some a, expiresAt⟩ = some st1 →
      shorten store cache (some longUrl) (some a) expiresAt isValidUrl gen now
        = (ShortenOutcome.ok a, st1,
            cache.set a longUrl now
              (effectiveTtl (expiresAt.map fun e => cacheTtlOf e now)))
      ∧ (shorten st1 cache (some longUrl) (some a) expiresAt isValidUrl gen now).1
        = ShortenOutcome.conflictAlias) := by
  refine ⟨?_, ?_, ?_, ?_⟩
  · intro h0 h1 h2
    simp [shorten, hvalid, hfut, shortenTries, h0, h1, h2]
  · intro hconf
    simp [shorten, hvalid, hfut, htrim, hne, hlen, hchars, shortenTries, hconf]
  · intro st1 h0 h1
    simp [shorten, hvalid, hfut, shortenTries, h0, h1]
  · intro st1 hins
    have hconf2 : st1.insertRow ⟨a, longUrl, some a, expiresAt⟩ = none :=
      insertRow_after_insert store st1 ⟨a, longUrl, some a, expiresAt⟩
        ⟨a, longUrl, some a, expiresAt⟩ hins rfl
    constructor
    · simp [shorten, hvalid, hfut, htrim, hne, hlen, hchars, shortenTries, hins]
    · simp [shorten, hvalid, hfut, htrim, hne, hlen, hchars, shortenTries, hconf2]

/-- Witness for `C5_creation_retries` at a concrete input: alias `my` is
created once, then conflicts. -/
theorem C5_creation_retries_witness :
    shorten ⟨[]⟩ ⟨[]⟩ (some "https://x.example") (some "my") none
        (fun _ => true) (fun _ => "gggg") 0
      = (ShortenOutcome.ok "my",
          ⟨[⟨"my", "https://x.example", some "my", none⟩]⟩,
          Cache.set ⟨[]⟩ "my" "https://x.example" 0
            (effectiveTtl ((none : Option Int).map fun e => cacheTtlOf e 0)))
    ∧ (shorten ⟨[⟨"my", "https://x.example", some "my", none⟩]⟩ ⟨[]⟩
        (some "https://x.example") (some "my") none
        (fun _ => true) (fun _ => "gggg") 0).1 = ShortenOutcome.conflictAlias :=
  (C5_creation_retries ⟨[]⟩ ⟨[]⟩ "https://x.example" "my" none
    (fun _ => true) (fun _ => "gggg") 0 rfl rfl (by decide) (by decide)
    (by decide) (by decide)).2.2.2
    ⟨[⟨"my", "https://x.example", some "my", none⟩]⟩ (by decide)

/-! ## Claim C6 -/

/-- `bumpCount` adds exactly one to the bumped key and nothing else. -/
theorem lookupD_bumpCount (m : List (String × Nat)) (k q : String) :
    lookupD (bumpCount k m) q = lookupD m q + (if q = k then 1 else 0) := by
  induction m with
  | nil =>
    by_cases h : q = k
    · simp [bumpCount, lookupD, h]
    · simp [bumpCount, lookupD, h, Ne.symm h]
  | cons p rest ih =>
    obtain ⟨p1, p2⟩ := p
    by_cases hpk : p1 = k
    · subst hpk
      by_cases hkq : p1 = q
      · subst hkq
        simp [bumpCount, lookupD]
      · have hqk : ¬ q = p1 := fun hh => hkq hh.symm
        simp [bumpCount, lookupD, hkq, hqk]
    · by_cases hpq : p1 = q
      · have hqk : ¬ q = k := fun hh => hpk (hpq.trans hh)
        simp [bumpCount, lookupD, hpk, hpq, hqk]
      · simp [bumpCount, lookupD, hpk, hpq, ih]

/-- The accumulation loop counts, per key, exactly the events carrying that
key in their field. -/
theorem lookupD_countByField (f : ScanEvent → Option String)
    (scans : List ScanEvent) (k : String) :
    lookupD (countByField f scans) k = scans.countP (fun s => f s == some k) := by
  suffices h : ∀ (l : List ScanEvent) (acc : List (String × Nat)),
      lookupD (l.foldl (fun m s => match f s with
        | some v => bumpCount v m
        | none => m) acc) k
        = lookupD acc k + l.countP (fun s => f s == some k) by
    simpa [countByField, lookupD] using h scans []
  intro l
  induction l with
  | nil => intro acc; simp [List.countP_nil]
  | cons s rest ih =>
    intro acc
    rw [List.foldl_cons, ih, List.countP_cons]
    cases hfs : f s with
    | none => simp [hfs]
    | some v =>
      by_cases hvk : k = v
      · simp [hfs, lookupD_bumpCount, hvk]
        omega
      · have : ¬ v = k := fun hh => hvk hh.symm
        simp [hfs, lookupD_bumpCount, hvk, this]

/-- Inserting into the descending-sorted list is a permutation (cons). -/
theorem insertByCountDesc_perm (x : String × Nat) (l : List (String × Nat)) :
    List.Perm (insertByCountDesc x l) (x :: l) := by
  induction l with
  | nil => exact List.Perm.refl _
  | cons y ys ih =>
    by_cases h : y.2 ≤ x.2
    · simp [insertByCountDesc, h]
    · simp only [insertByCountDesc, if_neg h]
      exact (ih.cons y).trans (List.Perm.swap x y ys)

/-- The stable sort permutes its input. -/
theorem sortByCountDesc_perm (l : List (String × Nat)) :
    List.Perm (sortByCountDesc l) l := by
  induction l with
  | nil => exact List.Perm.refl _
  | cons x xs ih => exact (insertByCountDesc_perm x _).trans (ih.cons x)

/-- Insertion preserves the descending-by-count ordering. -/
theorem pairwise_insertByCountDesc (x : String × Nat) (l : List (String × Nat))
    (h : List.Pairwise (fun p q => q.2 ≤ p.2) l) :
    List.Pairwise (fun p q => q.2 ≤ p.2) (insertByCountDesc x l) := by
  induction l with
  | nil => simp [insertByCountDesc]
  | cons y ys ih =>
    rcases List.pairwise_cons.mp h with ⟨hy, hys⟩
    by_cases hc : y.2 ≤ x.2
    · simp only [insertByCountDesc, if_pos hc]
      refine List.pairwise_cons.mpr ⟨?_, h⟩
      intro z hz
      rcases List.mem_cons.mp hz with hz | hz
      · exact hz ▸ hc
      · exact le_trans (hy z hz) hc
    · simp only [insertByCountDesc, if_neg hc]
      refine List.pairwise_cons.mpr ⟨?_, ih hys⟩
      intro z hz
      rcases List.mem_cons.mp ((insertByCountDesc_perm x ys).mem_iff.mp hz) with hz | hz
      · exact hz ▸ le_of_lt (lt_of_not_le hc)
      · exact hy z hz

/-- The sorted country counts are descending by count. -/
theorem pairwise_sortByCountDesc (l : List (String × Nat)) :
    List.Pairwise (fun p q => q.2 ≤ p.2) (sortByCountDesc l) := by
  induction l with
  | nil => simp [sortByCountDesc]
  | cons x xs ih => exact pairwise_insertByCountDesc x _ ih

/-- **C6**: for every event list, `total_scans` is the number of events;
when no event post-dates the clock (`now` inside the current UTC day
starting at `todayStart`), `scans_today` counts exactly the events whose
`scanned_at` falls within the current UTC day; and `top_countries` groups
the events by country (per-country totals are exact), is sorted descending
by count (stably, hence deterministically), and is capped at 10 entries —
on 5 events with countries US,US,US,CA,CA it equals `[(US,3), (CA,2)]`. -/
theorem C6_aggregation (scans : List ScanEvent) (todayStart now : Int)
    (hpast : ∀ s ∈ scans, s.scanned_at ≤ now)
    (hday : now < todayStart + 86400000) :
    totalScans scans = scans.length
    ∧ scansToday scans todayStart
        = (scans.filter fun s =>
            decide (todayStart ≤ s.scanned_at ∧ s.scanned_at < todayStart + 86400000)).length
    ∧ (∀ c, lookupD (countByField (fun s => s.country) scans) c
        = scans.countP fun s => s.country == some c)
    ∧ List.Perm (sortByCountDesc (countByField (fun s => s.country) scans))
        (countByField (fun s => s.country) scans)
    ∧ List.Pairwise (fun p q => q.2 ≤ p.2) (topCountries scans)
    ∧ (topCountries scans).length ≤ 10
    ∧ topCountries
        [⟨"c", 10, none, some "US", none⟩, ⟨"c", 20, none, some "US", none⟩,
         ⟨"c", 30, none, some "US", none⟩, ⟨"c", 40, none, some "CA", none⟩,
         ⟨"c", 50, none, some "CA", none⟩]
        = [("US", 3), ("CA", 2)]
    ∧ totalScans
        [⟨"c", 10, none, some "US", none⟩, ⟨"c", 20, none, some "US", none⟩,
         ⟨"c", 30, none, some "US", none⟩, ⟨"c", 40, none, some "CA", none⟩,
         ⟨"c", 50, none, some "CA", none⟩] = 5 := by
  refine ⟨rfl, ?_, fun c => lookupD_countByField _ scans c, sortByCountDesc_perm _,
    ?_, ?_, by decide, rfl⟩
  · unfold scansToday
    congr 1
    refine List.filter_congr ?_
    intro s hs
    have h1 : s.scanned_at < todayStart + 86400000 :=
      lt_of_le_of_lt (hpast s hs) hday
    by_cases h2 : todayStart ≤ s.scanned_at
    · simp [h2, h1]
    · simp [h2]
  · exact List.Pairwise.sublist (List.take_sublist 10 _) (pairwise_sortByCountDesc _)
  · exact List.length_take_le 10 _

/-- Witness for `C6_aggregation` at a concrete input. -/
theorem C6_aggregation_witness :
    totalScans
        [⟨"c", 10, none, some "US", none⟩, ⟨"c", 20, none, some "US", none⟩,
         ⟨"c", 30, none, some "US", none⟩, ⟨"c", 40, none, some "CA", none⟩,
         ⟨"c", 50, none, some "CA", none⟩] =
      (5 : Nat) ∧
    scansToday
        [⟨"c", 10, none, some "US", none⟩, ⟨"c", 20, none, some "US", none⟩,
         ⟨"c", 30, none, some "US", none⟩, ⟨"c", 40, none, some "CA", none⟩,
         ⟨"c", 50, none, some "CA", none⟩] 0
      = (List.filter (fun s =>
            decide (0 ≤ s.scanned_at ∧ s.scanned_at < 0 + 86400000))
          ([⟨"c", 10, none, some "US", none⟩, ⟨"c", 20, none, some "US", none⟩,
            ⟨"c", 30, none, some "US", none⟩, ⟨"c", 40, none, some "CA", none⟩,
            ⟨"c", 50, none, some "CA", none⟩] : List ScanEvent)).length := by
  have h := C6_aggregation
    [⟨"c", 10, none, some "US", none⟩, ⟨"c", 20, none, some "US", none⟩,
     ⟨"c", 30, none, some "US", none⟩, ⟨"c", 40, none, some "CA", none⟩,
     ⟨"c", 50, none, some "CA", none⟩] 0 100 (by decide) (by decide)
  exact ⟨h.1.trans (by decide), h.2.1⟩

/-! ## Claim C7 -/

/-- **C7**: device classification is a total function into
{mobile, desktop, tablet, unknown} of the user agent alone, and the tablet
patterns are tested before the generic mobile patterns: any user agent
matching both the tablet regex and the mobile regex (e.g. an iPad UA
carrying `Mobile/15E148`, or a non-mobile Android tablet) classifies as
tablet, never as mobile. -/
theorem C7_tablet_before_mobile (ua : String)
    (htab : tabletMatch (lowerStr ua).data = true)
    (_hmob : mobileMatch (lowerStr ua).data = true) :
    classifyDevice (some ua) = Device.tablet
    ∧ ∀ v : Option String, classifyDevice v = Device.mobile
        ∨ classifyDevice v = Device.desktop ∨ classifyDevice v = Device.tablet
        ∨ classifyDevice v = Device.unknown := by
  constructor
  · have hne : ¬ lowerStr ua = "" := by
      intro h
      rw [h] at htab
      exact absurd htab (by decide)
    simp [classifyDevice, htab, hne]
  · intro v
    cases h : classifyDevice v <;> simp [h]

set_option maxRecDepth 16384 in
/-- Witness for `C7_tablet_before_mobile`: an iPad user agent that also
contains `mobile` classifies as tablet. -/
theorem C7_tablet_before_mobile_witness :
    classifyDevice (some "mozilla/5.0 (ipad; cpu os 16_0) mobile/15e148 safari")
      = Device.tablet :=
  (C7_tablet_before_mobile "mozilla/5.0 (ipad; cpu os 16_0) mobile/15e148 safari"
    (by decide) (by decide)).1

/-! ## Claim C8 -/

set_option maxRecDepth 16384 in
/-- **C8**, counterexample: with a uniform byte the 62 alphabet symbols are
not equally likely.  `256 = 4·62 + 8`, so symbol `a` (alphabet index 0) is
produced by 5 of the 256 byte values while symbol `i` (index 8) is produced
by only 4. -/
theorem C8_counterexample :
    ((List.range 256).countP fun b => generateCode [b] 1 == "a") = 5
    ∧ ((List.range 256).countP fun b => generateCode [b] 1 == "i") = 4
    ∧ (5 : Nat) ≠ 4 := by
  decide

set_option maxRecDepth 65536 in
/-- **C8**, amended: `generate(n)` returns exactly `n` characters, each from
the fixed 62-symbol alphabet; position `i` holds `ALPHABET[bytes[i] % 62]`,
so under a uniform byte the 8 symbols at alphabet indices 0-7 (`a`-`h`)
each arise from 5 of the 256 byte values and the remaining 54 symbols from
4 — near-uniform, with a modulo bias of one part in four. -/
theorem C8_generate_amended (bytes : List Nat) (n : Nat) :
    (generateCode bytes n).length = n
    ∧ (∀ c ∈ (generateCode bytes n).data, c ∈ ALPHABET.data)
    ∧ (∀ j, j < 62 →
        ((List.range 256).countP fun b =>
            generateCode [b] 1 == String.mk [ALPHABET.data.getD j 'a'])
          = if j < 8 then 5 else 4) := by
  refine ⟨?_, ?_, ?_⟩
  · show ((List.range n).map fun i =>
        ALPHABET.data.getD ((bytes.getD i 0) % ALPHABET.data.length) 'a').length = n
    simp
  · intro c hc
    obtain ⟨i, _, heq⟩ := List.mem_map.mp hc
    have hlt : (bytes.getD i 0) % ALPHABET.data.length < ALPHABET.data.length :=
      Nat.mod_lt _ (by decide)
    rw [← heq, List.getD_eq_getElem ALPHABET.data 'a' hlt]
    exact List.getElem_mem hlt
  · decide

set_option maxRecDepth 65536 in
/-- Witness for `C8_generate_amended` at a concrete input. -/
theorem C8_generate_amended_witness :
    (generateCode [0, 61, 62, 200] 4).length = 4
    ∧ ((List.range 256).countP fun b =>
        generateCode [b] 1 == String.mk [ALPHABET.data.getD 0 'a']) = 5 :=
  ⟨(C8_generate_amended [0, 61, 62, 200] 4).1,
    (C8_generate_amended [0, 61, 62, 200] 4).2.2 0 (by decide)⟩

/-! ## Claim C9 -/

/-- **C9**: the device breakdown partitions the events —
`mobile + desktop + tablet + unknown` equals `total_scans`, for every event
list. -/
theorem C9_device_partition (scans : List ScanEvent) :
    (deviceCounts scans).mobile + (deviceCounts scans).desktop
      + (deviceCounts scans).tablet + (deviceCounts scans).unknown
      = totalScans scans := by
  have key : ∀ (l : List ScanEvent) (d : DeviceCounts),
      ((l.foldl
        (fun d s =>
          match classifyDevice s.user_agent with
          | .mobile => ⟨d.mobile + 1, d.desktop, d.tablet, d.unknown⟩
          | .desktop => ⟨d.mobile, d.desktop + 1, d.tablet, d.unknown⟩
          | .tablet => ⟨d.mobile, d.desktop, d.tablet + 1, d.unknown⟩
          | .unknown => ⟨d.mobile, d.desktop, d.tablet, d.unknown + 1⟩) d).mobile
        + (l.foldl
        (fun d s =>
          match classifyDevice s.user_agent with
          | .mobile => ⟨d.mobile + 1, d.desktop, d.tablet, d.unknown⟩
          | .desktop => ⟨d.mobile, d.desktop + 1, d.tablet, d.unknown⟩
          | .tablet => ⟨d.mobile, d.desktop, d.tablet + 1, d.unknown⟩
          | .unknown => ⟨d.mobile, d.desktop, d.tablet, d.unknown + 1⟩) d).desktop
        + (l.foldl
        (fun d s =>
          match classifyDevice s.user_agent with
          | .mobile => ⟨d.mobile + 1, d.desktop, d.tablet, d.unknown⟩
          | .desktop => ⟨d.mobile, d.desktop + 1, d.tablet, d.unknown⟩
          | .tablet => ⟨d.mobile, d.desktop, d.tablet + 1, d.unknown⟩
          | .unknown => ⟨d.mobile, d.desktop, d.tablet, d.unknown + 1⟩) d).tablet
        + (l.foldl
        (fun d s =>
          match classifyDevice s.user_agent with
          | .mobile => ⟨d.mobile + 1, d.desktop, d.tablet, d.unknown⟩
          | .desktop => ⟨d.mobile, d.desktop + 1, d.tablet, d.unknown⟩
          | .tablet => ⟨d.mobile, d.desktop, d.tablet + 1, d.unknown⟩
          | .unknown => ⟨d.mobile, d.desktop, d.tablet, d.unknown + 1⟩) d).unknown)
        = d.mobile + d.desktop + d.tablet + d.unknown + l.length := by
    intro l
    induction l with
    | nil => intro d; simp
    | cons s rest ih =>
      intro d
      rw [List.foldl_cons, ih]
      cases h : classifyDevice s.user_agent <;> simp [h] <;> omega
  simpa [deviceCounts, totalScans] using key scans ⟨0, 0, 0, 0⟩

/-! ## Claim C10 -/

/-- **C10**: every `recent_scans` entry's `device` field is computed solely
from whether the lowercased user agent contains the substring `mobile`
(`"mobile"` if so, `"desktop"` otherwise, with a missing user agent giving
`"desktop"`); it is therefore never `"tablet"` or `"unknown"`, and it can
disagree with the device-breakdown classification of the same event — a
bare `ipad` user agent is `tablet` in the breakdown yet `"desktop"` here. -/
theorem C10_recent_device_field :
    (∀ ua : String, recentDevice (some ua) = "mobile"
        ↔ hasSub "mobile".data (lowerStr ua).data = true)
    ∧ recentDevice none = "desktop"
    ∧ (∀ v : Option String, recentDevice v = "mobile" ∨ recentDevice v = "desktop")
    ∧ (∀ (scans : List ScanEvent) (r : RecentScan), r ∈ recentScans scans →
        r.device = "mobile" ∨ r.device = "desktop")
    ∧ (recentDevice (some "ipad") = "desktop"
        ∧ classifyDevice (some "ipad") = Device.tablet) := by
  have hval : ∀ v : Option String,
      recentDevice v = "mobile" ∨ recentDevice v = "desktop" := by
    intro v
    cases v with
    | none => exact Or.inr rfl
    | some ua =>
      by_cases h : hasSub "mobile".data (lowerStr ua).data
      · exact Or.inl (by simp [recentDevice, h])
      · exact Or.inr (by simp [recentDevice, h])
  refine ⟨?_, rfl, hval, ?_, by decide⟩
  · intro ua
    by_cases h : hasSub "mobile".data (lowerStr ua).data
    · simp [recentDevice, h]
    · simp [recentDevice, h]
  · intro scans r hr
    simp only [recentScans, List.mem_map] at hr
    obtain ⟨s, _, rfl⟩ := hr
    exact hval s.user_agent

/-- Witness for `C10_recent_device_field` at concrete inputs. -/
theorem C10_recent_device_field_witness :
    recentDevice (some "iPhone Mobile Safari") = "mobile"
    ∧ (recentScans [⟨"c", 1, some "ipad", none, none⟩]).map
        (fun r => r.device) = ["desktop"] :=
  ⟨(C10_recent_device_field.1 "iPhone Mobile Safari").mpr (by decide),
    by
      have h := C10_recent_device_field.2.2.2.1 [⟨"c", 1, some "ipad", none, none⟩]
      decide⟩

end QrKit
